import Mathlib

/-!
# Verification of the skyline native-execution core

A shallow embedding of the code-patching engine (`NCE::PatchCode`), the
guest/host thread handshake (`ExecuteFunctionCtx`, `NCE::ExecuteFunction`,
`NCE::KernelThread`), the executable loader (`Loader::LoadExecutable`), the
guest-to-host priority mapping (`KThread::UpdatePriority`) and the two-cohort
`GroupMutex`, together with theorems settling the specification's claims.

Pure functions of the C++ source are translated into Lean functions; the
watcher loop and the group mutex are modelled as explicit step functions /
labelled transition systems.  Machine integers are modelled as `Nat`/`Int`
(the quantities involved never overflow their C++ types in the properties
proved, except where an explicit `% 2 ^ 16` mirrors a `static_cast<u16>`).
-/

set_option autoImplicit false

namespace Skyline

/-! ## Instruction-stream model

`NCE::PatchCode` (nce.cpp) scans the guest instruction stream word by word,
recognizing supervisor calls (`instr::Svc::Verify`) and privileged register
reads (`instr::Mrs::Verify`).

Modelled from the spec: the instruction matchers of `nce/instructions.h` are
not under src/; per §2 "Instruction Matchers: recognize supervisor-call and
specific privileged-register-read instruction encodings in a raw instruction
stream", a decoded word is a supervisor call carrying a 16-bit immediate, a
privileged register read `MRS Xd, sysreg` carrying the system-register id and
the destination register, or anything else. -/
inductive GuestInstr where
  | svc (imm : Nat)
  | mrs (srcReg : Nat) (destReg : Nat)
  | other (w : Nat)
deriving DecidableEq

/-- ID of TPIDRRO_EL0 in MRS (nce.cpp). -/
def TpidrroEl0 : Nat := 0x5E83
/-- ID of CNTFRQ_EL0 in MRS (nce.cpp). -/
def CntfrqEl0 : Nat := 0x5F00
/-- ID of CNTPCT_EL0 in MRS (nce.cpp). -/
def CntpctEl0 : Nat := 0x5F01
/-- ID of CNTVCT_EL0 in MRS (nce.cpp). -/
def CntvctEl0 : Nat := 0x5F02
/-- The clock frequency of the Tegra X1 (19.2 MHz) (nce.cpp). -/
def TegraX1Freq : Nat := 19200000

/-- One 32-bit word appended to the patch buffer.  Branch displacements are
kept symbolic (byte displacement relative to the branch's own address), the
remaining words record which fixed encoding the source pushes.

Modelled from the spec: the word-level encodings of `nce/instructions.h` and
the bodies of the guest routines of `nce/guest.S` (`SaveCtx`, `LoadCtx`,
`SvcHandler`, `RescaleClock`) are not under src/; the prologue routines are
represented by opaque indexed words, faithful to §3's "three fixed prologue
routines ... emitted first at known offsets". -/
inductive PatchWord where
  | saveCtxWord (k : Nat)
  | loadCtxWord (k : Nat)
  | svcHandlerWord (k : Nat)
  | rescaleClockWord (k : Nat)
  | strLr                                               -- STR LR, [SP, #-16]!
  | ldrLr                                               -- LDR LR, [SP], #16
  | bl (disp : Int)                                     -- BL, byte displacement
  | b (disp : Int)                                      -- B, byte displacement
  | movz (w32 : Bool) (reg : Nat) (imm : Nat) (shift : Nat)
  | movk (w32 : Bool) (reg : Nat) (imm : Nat) (shift : Nat)
  | strX0                                               -- STR X0, [SP, #-16]!
  | ldrX0                                               -- LDR X0, [SP], #16
  | mrsTpidrEl0                                         -- MRS X0, TPIDR_EL0
  | ldrTlsOffset                                        -- LDR X0, [X0, #256]
  | movRegX0 (dest : Nat)                               -- MOV Xd, X0
  | ldrSp (dest : Nat)                                  -- LDR Xd, [SP]
  | addSp32                                             -- ADD SP, SP, #32
deriving DecidableEq

/-- A word of the rewritten instruction stream: either an (possibly in-place
rewritten) ordinary instruction or the branch written over a matched site. -/
inductive OutWord where
  | orig (w : GuestInstr)
  | branch (disp : Int)
deriving DecidableEq

/-- Modelled from the spec: `instr::MoveU64Reg` of `nce/instructions.h` is not
under src/; it materializes a 64-bit immediate into a register as a `MOVZ`
followed by `MOVK`s, one per 16-bit halfword (§4.1 "materializes the guest
program counter ... into fixed registers"). -/
def MoveU64Reg (reg : Nat) (v : Nat) : List PatchWord :=
  [.movz false reg (v % 2 ^ 16) 0,
   .movk false reg (v / 2 ^ 16 % 2 ^ 16) 16,
   .movk false reg (v / 2 ^ 32 % 2 ^ 16) 32,
   .movk false reg (v / 2 ^ 48 % 2 ^ 16) 48]

/-- Modelled from the spec: `instr::MoveU32Reg` of `nce/instructions.h` is not
under src/; it materializes a 32-bit immediate as a `MOVZ` plus a `MOVK`
(§4.1 "materializes the fixed reference frequency as an immediate"). -/
def MoveU32Reg (reg : Nat) (v : Nat) : List PatchWord :=
  [.movz true reg (v % 2 ^ 16) 0,
   .movk true reg (v / 2 ^ 16 % 2 ^ 16) 16]

/-- The inputs of `NCE::PatchCode` together with the ambient host state it
reads: the host counter frequency (the `static u64 frequency` read via
`MRS CNTFRQ_EL0`) and the word counts of the four guest routines
(`guest::SaveCtxSize` etc., byte sizes `4 * nSave` ...). -/
structure PatchConfig where
  frequency : Nat
  nSave : Nat
  nLoad : Nat
  nSvcH : Nat
  nRescale : Nat
  baseAddress : Nat
  offset0 : Int
deriving DecidableEq

/-- The mutable loop state of `NCE::PatchCode`: the two running byte offsets,
the rewritten stream produced so far and the patch buffer. -/
structure PatchState where
  offset : Int
  patchOffset : Int
  out : List OutWord
  patch : List PatchWord
deriving DecidableEq

/-- The supervisor-call arm of `NCE::PatchCode`'s loop (nce.cpp lines
241-271): replace the site with `B` into a fresh trampoline
`STR LR; BL SaveCtx; MOVs pc; MOVZ W1, imm; BL SvcHandler; BL LoadCtx;
LDR LR; B back`, with displacements taken from the running counters. -/
def stepSvc (cfg : PatchConfig) (i : Nat) (imm : Nat) (s : PatchState) : PatchState :=
  let szSave : Int := 4 * cfg.nSave
  let szLoad : Int := 4 * cfg.nLoad
  let bJunc := s.offset
  let o1 := s.offset + 4                                -- offset += sizeof(strLr)
  let bSvCtx := s.patchOffset - o1
  let o2 := o1 + 4                                      -- offset += sizeof(bSvCtx)
  let movPc := MoveU64Reg 0 (cfg.baseAddress + i)       -- regs::X0, baseAddress + (address - start)
  let o3 := o2 + 4 * movPc.length
  let o4 := o3 + 4                                      -- offset += sizeof(movCmd)
  let bSvcHandler := (s.patchOffset + szSave + szLoad) - o4
  let o5 := o4 + 4                                      -- offset += sizeof(bSvcHandler)
  let bLdCtx := (s.patchOffset + szSave) - o5
  let o6 := o5 + 4                                      -- offset += sizeof(bLdCtx)
  let o7 := o6 + 4                                      -- offset += sizeof(ldrLr)
  let bret := -o7 + 4
  let o8 := o7 + 4                                      -- offset += sizeof(bret)
  { offset := o8, patchOffset := s.patchOffset,
    out := s.out ++ [.branch bJunc],
    patch := s.patch ++ [.strLr, .bl bSvCtx] ++ movPc ++
      [.movz true 1 (imm % 2 ^ 16) 0, .bl bSvcHandler, .bl bLdCtx, .ldrLr, .b bret] }

/-- The TPIDRRO_EL0 arm (nce.cpp lines 273-304): read the host TPIDR_EL0,
apply the fixed structural offset, move into the destination register with a
spill of X0 when the destination is not X0 itself. -/
def stepTpidr (destReg : Nat) (s : PatchState) : PatchState :=
  let bJunc := s.offset
  let spill := destReg ≠ 0
  let oA := if spill then s.offset + 4 else s.offset    -- offset += sizeof(strX0)
  let oB := oA + 4                                      -- offset += sizeof(mrsX0)
  let oC := oB + 4                                      -- offset += sizeof(ldrTls)
  let oD := if spill then oC + 4 + 4 else oC            -- movXn, ldrX0
  let bret := -oD + 4
  let oE := oD + 4                                      -- offset += sizeof(bret)
  { offset := oE, patchOffset := s.patchOffset,
    out := s.out ++ [.branch bJunc],
    patch := s.patch ++ (if spill then [.strX0] else []) ++ [.mrsTpidrEl0, .ldrTlsOffset] ++
      (if spill then [.movRegX0 destReg, .ldrX0] else []) ++ [.b bret] }

/-- The CNTPCT_EL0 arm when the host frequency differs from the reference
frequency (nce.cpp lines 306-323): inline the `RescaleClock` routine followed
by a load of the rescaled value into the destination register. -/
def stepCntpct (cfg : PatchConfig) (destReg : Nat) (s : PatchState) : PatchState :=
  let bJunc := s.offset
  let o1 := s.offset + 4 * cfg.nRescale                 -- offset += RescaleClockSize
  let o2 := o1 + 4                                      -- offset += sizeof(ldr)
  let o3 := o2 + 4                                      -- offset += sizeof(addSp)
  let bret := -o3 + 4
  let o4 := o3 + 4                                      -- offset += sizeof(bret)
  { offset := o4, patchOffset := s.patchOffset,
    out := s.out ++ [.branch bJunc],
    patch := s.patch ++ (List.range cfg.nRescale).map .rescaleClockWord ++
      [.ldrSp destReg, .addSp32, .b bret] }

/-- The CNTFRQ_EL0 arm when the host frequency differs from the reference
frequency (nce.cpp lines 324-335): materialize `TegraX1Freq` into the
destination register and branch back. -/
def stepCntfrq (destReg : Nat) (s : PatchState) : PatchState :=
  let bJunc := s.offset
  let movFreq := MoveU32Reg destReg TegraX1Freq
  let o1 := s.offset + 4 * movFreq.length
  let bret := -o1 + 4
  let o2 := o1 + 4                                      -- offset += sizeof(bret)
  { offset := o2, patchOffset := s.patchOffset,
    out := s.out ++ [.branch bJunc],
    patch := s.patch ++ movFreq ++ [.b bret] }

/-- A state change that leaves the site untouched (default arm). -/
def stepKeep (w : GuestInstr) (s : PatchState) : PatchState :=
  { s with out := s.out ++ [.orig w] }

/-- One iteration of `NCE::PatchCode`'s loop over the instruction at stream
index `i` (nce.cpp lines 237-346), including the final
`offset -= sizeof(u32); patchOffset -= sizeof(u32);`. -/
def step (cfg : PatchConfig) (i : Nat) (w : GuestInstr) (s : PatchState) : PatchState :=
  let t :=
    match w with
    | .svc imm => stepSvc cfg i imm s
    | .mrs srcReg destReg =>
      if srcReg = TpidrroEl0 then
        stepTpidr destReg s
      else if cfg.frequency ≠ TegraX1Freq then
        if srcReg = CntpctEl0 then
          stepCntpct cfg destReg s
        else if srcReg = CntfrqEl0 then
          stepCntfrq destReg s
        else
          stepKeep (.mrs srcReg destReg) s
      else
        if srcReg = CntpctEl0 then
          stepKeep (.mrs CntvctEl0 destReg) s           -- in-place rewrite to CNTVCT_EL0
        else
          stepKeep (.mrs srcReg destReg) s
    | .other v => stepKeep (.other v) s
  { t with offset := t.offset - 4, patchOffset := t.patchOffset - 4 }

/-- The loop of `NCE::PatchCode` from stream index `i` in state `s`. -/
def patchLoop (cfg : PatchConfig) : List GuestInstr → Nat → PatchState → PatchState
  | [], _, s => s
  | w :: rest, i, s => patchLoop cfg rest (i + 1) (step cfg i w s)

/-- The patch buffer before the loop runs: the three prologue routines
(save-context, load-context, supervisor-call handler stub), in that order. -/
def initPatch (cfg : PatchConfig) : List PatchWord :=
  (List.range cfg.nSave).map .saveCtxWord ++
  (List.range cfg.nLoad).map .loadCtxWord ++
  (List.range cfg.nSvcH).map .svcHandlerWord

/-- The state of `NCE::PatchCode` just before its loop: the prologue copied,
`offset` advanced past it, `patchOffset` still the caller's offset. -/
def patchInit (cfg : PatchConfig) : PatchState :=
  { offset := cfg.offset0 + 4 * ((cfg.nSave : Int) + cfg.nLoad + cfg.nSvcH),
    patchOffset := cfg.offset0,
    out := [],
    patch := initPatch cfg }

/-- The function `NCE::PatchCode` (nce.cpp lines 211-348): returns the rewritten
instruction stream and the patch buffer. -/
def PatchCode (cfg : PatchConfig) (code : List GuestInstr) : List OutWord × List PatchWord :=
  let s := patchLoop cfg code 0 (patchInit cfg)
  (s.out, s.patch)

/-- The patch buffer of `NCE::PatchCode` after processing only the first `n`
instructions of the stream (prologue included). -/
def patchAfter (cfg : PatchConfig) (code : List GuestInstr) (n : Nat) : List PatchWord :=
  (patchLoop cfg (code.take n) 0 (patchInit cfg)).patch

/-- The loop invariant of `NCE::PatchCode` at stream index `i`: `offset` is
the byte distance from the current instruction to the end of the patch buffer
built so far, `patchOffset` the byte distance to the buffer's start. -/
def PatchInv (cfg : PatchConfig) (s : PatchState) (i : Nat) : Prop :=
  s.offset = cfg.offset0 + 4 * s.patch.length - 4 * i ∧
  s.patchOffset = cfg.offset0 - 4 * i

/-- The guest address of the instruction at stream index `i`. -/
def codeAddr (cfg : PatchConfig) (i : Nat) : Int := (cfg.baseAddress : Int) + 4 * i

/-- The address at which the caller maps the patch buffer: `offset0` is the
signed offset from the executable base to the patch region
(`Loader::LoadExecutable` passes `-patchRegionSize`). -/
def patchBase (cfg : PatchConfig) : Int := (cfg.baseAddress : Int) + cfg.offset0

/-- The address of patch-buffer word `j` once mapped. -/
def patchAddr (cfg : PatchConfig) (j : Nat) : Int := patchBase cfg + 4 * j

/-! ## Executable loader (`Loader::LoadExecutable`, loader.cpp) -/

/-- The value of `PAGE_SIZE` on the target platform. -/
def pageSize : Nat := 4096

/-- The constant `constant::BaseAddress` (common.h): the address space base. -/
def BaseAddress : Nat := 0x8000000

/-- The predicate `util::PageAligned` (common.h): `!(address & (PAGE_SIZE - 1U))`. -/
def PageAligned (address : Nat) : Bool := address &&& (pageSize - 1) == 0

/-- A section of an `Executable`: its contents (modelled at word granularity,
byte size `4 * contents.length`) and its load offset. -/
structure ExecSection where
  contents : List GuestInstr
  offset : Nat
deriving DecidableEq

/-- The record `Loader::Executable`: text, read-only and data sections plus the size of
the zero-initialized tail of the data section. -/
structure Executable where
  text : ExecSection
  ro : ExecSection
  data : ExecSection
  bssSize : Nat
deriving DecidableEq

/-- The two alignment failures of `Loader::LoadExecutable`, each carrying the
three offending values exactly as the thrown exception does. -/
inductive LoadError where
  | sectionSizeMisaligned (textSize roSize dataSize : Nat)
  | sectionOffsetMisaligned (textOffset roOffset dataOffset : Nat)
deriving DecidableEq

/-- The successful outcome of `Loader::LoadExecutable`: the patch buffer, the
rewritten text, and the memory mappings and writes it performs, in order, as
(address, byte size) pairs. -/
structure LoadResult where
  patch : List PatchWord
  rewrittenText : List OutWord
  mappings : List (Nat × Nat)
  writes : List (Nat × Nat)
deriving DecidableEq

/-- The function `Loader::LoadExecutable` (loader.cpp lines 10-48): check page alignment of
the section sizes, then of the section offsets, then invoke `PatchCode` on the
text section and map/write the four regions.  Both alignment failures abort
before `PatchCode` runs and before anything is mapped or written. -/
def LoadExecutable (frequency nSave nLoad nSvcH nRescale : Nat) (executable : Executable)
    (offset : Nat) : Except LoadError LoadResult :=
  let patchRegionSize := pageSize * 0x10
  let base := BaseAddress + offset - patchRegionSize
  let executableBase := base + patchRegionSize
  let textSize := 4 * executable.text.contents.length
  let roSize := 4 * executable.ro.contents.length
  let dataSize := 4 * executable.data.contents.length + executable.bssSize
  if ¬(PageAligned textSize ∧ PageAligned roSize ∧ PageAligned dataSize) then
    .error (.sectionSizeMisaligned textSize roSize dataSize)
  else if ¬(PageAligned executable.text.offset ∧ PageAligned executable.ro.offset ∧
      PageAligned executable.data.offset) then
    .error (.sectionOffsetMisaligned executable.text.offset executable.ro.offset
      executable.data.offset)
  else
    let cfg : PatchConfig :=
      { frequency := frequency, nSave := nSave, nLoad := nLoad, nSvcH := nSvcH,
        nRescale := nRescale, baseAddress := executableBase,
        offset0 := -(patchRegionSize : Int) }
    let patched := PatchCode cfg executable.text.contents
    let patchSize := 4 * patched.2.length
    .ok { patch := patched.2,
          rewrittenText := patched.1,
          mappings := [(base, patchRegionSize),
                       (executableBase + executable.text.offset, textSize),
                       (executableBase + executable.ro.offset, roSize),
                       (executableBase + executable.data.offset, dataSize)],
          writes := [(base, patchSize),
                     (executableBase + executable.text.offset, textSize),
                     (executableBase + executable.ro.offset, roSize),
                     (executableBase + executable.data.offset, dataSize - executable.bssSize)] }

/-! ## Thread context and the handshake protocol

Modelled from the spec: the `ThreadContext` structure and `ThreadState`
enumeration live in `nce/guest_common.h`, which is not under src/; §3 of the
spec enumerates the states `NotReady`, `WaitInit`, `WaitRun`, `WaitFunc`,
`WaitKernel`, `GuestCrash` and the fields `state`, `commandId`, `registers`,
`pc`, `sp`, `faultAddress`, `tpidrroEl0`. -/

inductive ThreadState where
  | notReady
  | waitInit
  | waitRun
  | waitFunc
  | waitKernel
  | guestCrash
deriving DecidableEq

/-- Modelled from the spec: the `Registers` record of `nce/guest_common.h` is
not under src/; §3: "fixed-size ordered sequence of 31 general-purpose 64-bit
registers".  `x0`/`x1` are named because `NCE::StartThread` writes them; the
theorems only use whole-snapshot equality. -/
structure Registers where
  x0 : Nat
  x1 : Nat
  rest : List Nat
deriving DecidableEq

/-- The per-guest-thread shared context (spec §3). -/
structure ThreadContext where
  state : ThreadState
  commandId : Nat
  registers : Registers
  pc : Nat
  sp : Nat
  faultAddress : Nat
  tpidrroEl0 : Nat
deriving DecidableEq

/-- The observable steps of `ExecuteFunctionCtx` (nce.cpp lines 117-130), in
the order the statements appear; the two busy-waits are single events. -/
inductive EfcEvent where
  | writeCommandId (v : Nat)
  | snapshotRegs
  | waitParked
  | writeArgRegs
  | setStateWaitFunc
  | waitReturn
  | harvestRegs
  | restoreRegs
deriving DecidableEq

/-- The function `ExecuteFunctionCtx` (nce.cpp lines 117-130).  The guest thread's
execution of the injected routine between the `WaitFunc` transition and the
second busy-wait's exit is modelled by the oracle `guest`, which maps the
argument registers to the registers the routine leaves in the context.
Returns the harvested registers, the final context and the event trace. -/
def ExecuteFunctionCtx (guest : Registers → Registers) (call : Nat) (funcRegs : Registers)
    (ctx : ThreadContext) : Registers × ThreadContext × List EfcEvent :=
  -- ctx->commandId = static_cast<u32>(call);
  let ctx1 := { ctx with commandId := call }
  -- Registers registers = ctx->registers;
  let saved := ctx1.registers
  -- while (state != WaitInit && state != WaitKernel);  (thread parks)
  -- ctx->registers = funcRegs;  ctx->state = WaitFunc;
  let ctx2 := { ctx1 with registers := funcRegs, state := ThreadState.waitFunc }
  -- while (state != WaitInit && state != WaitKernel);  (guest runs the routine and parks)
  let ctx3 := { ctx2 with registers := guest funcRegs, state := ThreadState.waitKernel }
  -- funcRegs = ctx->registers;
  let harvested := ctx3.registers
  -- ctx->registers = registers;
  let ctx4 := { ctx3 with registers := saved }
  (harvested, ctx4,
   [.writeCommandId call, .snapshotRegs, .waitParked, .writeArgRegs, .setStateWaitFunc,
    .waitReturn, .harvestRegs, .restoreRegs])

/-- The step order asserted by the spec (§4.2 "the supervisor: snapshots
current registers, waits until state is WaitInit or WaitKernel, overwrites
the register snapshot with the call's arguments and a selector in commandId,
sets state to WaitFunc, waits again ..., harvests the resulting registers,
and restores the original snapshot"), stated as an event trace for
comparison with the trace of `ExecuteFunctionCtx`. -/
def specClaimedEfcOrder (call : Nat) : List EfcEvent :=
  [.snapshotRegs, .waitParked, .writeArgRegs, .writeCommandId call, .setStateWaitFunc,
   .waitReturn, .harvestRegs, .restoreRegs]

/-- Modelled from the spec: `KProcess::Status` (KProcess.h is not under src/);
nce.cpp tests `state.process->status == kernel::type::KProcess::Status::Exiting`. -/
inductive KProcessStatus where
  | created
  | started
  | exiting
deriving DecidableEq

/-- The fatal error of `NCE::ExecuteFunction`. -/
inductive NceError where
  | executingOnExitingProcess
deriving DecidableEq

/-- The overload `NCE::ExecuteFunction` (nce.cpp lines 136-142): throw when the owning
process is `Exiting`, otherwise run `ExecuteFunctionCtx` on the thread's
context.  A throw is modelled as an error value together with the unchanged
`funcRegs`, context and an empty event trace. -/
def NceExecuteFunction (status : KProcessStatus) (guest : Registers → Registers) (call : Nat)
    (funcRegs : Registers) (ctx : ThreadContext) :
    Option NceError × Registers × ThreadContext × List EfcEvent :=
  if status = KProcessStatus.exiting then
    (some NceError.executingOnExitingProcess, funcRegs, ctx, [])
  else
    let r := ExecuteFunctionCtx guest call funcRegs ctx
    (none, r.1, r.2.1, r.2.2)

/-! ## The watcher loop (`NCE::KernelThread`, nce.cpp lines 18-79) -/

/-- The outcome of one iteration of the watcher loop. -/
inductive SvcOutcome where
  | breakHalt                 -- Halt observed: break out of the loop
  | skipNoSurface             -- Surface is null: continue
  | handled (svc : Nat)       -- SvcTable entry invoked, state re-armed to WaitRun
  | fatal (svc : Nat)         -- no SvcTable entry: exception wrapping the SVC code
  | crashExit                 -- GuestCrash: trace logged, state set to WaitRun, break
  | idle                      -- no handoff pending
deriving DecidableEq

/-- One iteration of the `while (true)` loop of `NCE::KernelThread` (nce.cpp
lines 23-60).  `halt1`/`surface1` are the values of the globals `Halt` and
`Surface` sampled before acquiring `JniMtx`, `halt2`/`surface2` the values
re-sampled after acquiring it.  `svcTable svc = true` models a non-null entry
of `kernel::svc::SvcTable`.  Returns the outcome and the updated context. -/
def KernelThreadIter (svcTable : Nat → Bool) (halt1 surface1 halt2 surface2 : Bool)
    (ctx : ThreadContext) : SvcOutcome × ThreadContext :=
  if halt1 then (.breakHalt, ctx)
  else if !surface1 then (.skipNoSurface, ctx)
  else if ctx.state = ThreadState.waitKernel then
    -- std::lock_guard jniGd(JniMtx); then re-check Halt and Surface
    if halt2 then (.breakHalt, ctx)
    else if !surface2 then (.skipNoSurface, ctx)
    else
      let svc := ctx.commandId % 2 ^ 16                 -- static_cast<const u16>
      if svcTable svc then (.handled svc, { ctx with state := ThreadState.waitRun })
      else (.fatal svc, ctx)                            -- throw exception("Unimplemented SVC ...")
  else if ctx.state = ThreadState.guestCrash then
    (.crashExit, { ctx with state := ThreadState.waitRun })
  else (.idle, ctx)

/-- Whether the iteration dispatched a supervisor-call handler. -/
def handlerRan : SvcOutcome → Bool
  | .handled _ => true
  | _ => false

/-- What `NCE::KernelThread` does after its loop exits (nce.cpp lines 67-78):
whether the guest thread is killed, whether the global `Halt` is set, and
whether that happens inside a `Group2` exclusive section of `JniMtx`. -/
structure TeardownEffect where
  killedThread : Bool
  haltSet : Bool
  underGroup2Lock : Bool
deriving DecidableEq

/-- The teardown branch of `NCE::KernelThread`: only runs when `Halt` is not
already set; the primary thread (`thread == state.process->pid`) additionally
sets `Halt` inside a `Group2` section. -/
def KernelThreadTeardown (halt : Bool) (threadPid processPid : Nat) : TeardownEffect :=
  if halt then ⟨false, false, false⟩
  else if threadPid = processPid then ⟨true, true, true⟩
  else ⟨true, false, false⟩

/-! ## Group Mutex

Modelled from the spec: the bodies of `GroupMutex::lock`/`GroupMutex::unlock`
live in common.cpp, which is not under src/ (common.h only declares them and
the fields `flag`, `next`, `num` and the bookkeeping `Mutex`).  Per §4.3:
`lock(group)` blocks until the token is unheld or held by `group`, then
increments the holder count and marks the token held by `group`; on release
with an opposing waiter, ownership passes to the waiter group (recorded in
`next`) before the releasing group may re-acquire; `unlock()` decrements the
holder count and, at zero, clears or hands off the token.  The internal
bookkeeping lock makes each operation atomic, so the primitive is modelled as
a labelled transition system whose steps are those atomic operations. -/

inductive TGroup where
  | group1
  | group2
deriving DecidableEq

/-- The opposing cohort. -/
def TGroup.opposing : TGroup → TGroup
  | .group1 => .group2
  | .group2 => .group1

/-- The bookkeeping of `GroupMutex` (`flag`, `next`, `num`), with the holder
count split by cohort and augmented with the number of threads blocked in
`lock` per cohort, so that mutual exclusion and the handoff policy are
observable. -/
structure GroupMutexState where
  flag : Option TGroup
  next : Option TGroup
  holders1 : Nat
  holders2 : Nat
  waiting1 : Nat
  waiting2 : Nat
deriving DecidableEq

namespace GroupMutexState

def holdersOf (s : GroupMutexState) : TGroup → Nat
  | .group1 => s.holders1
  | .group2 => s.holders2

def waitingOf (s : GroupMutexState) : TGroup → Nat
  | .group1 => s.waiting1
  | .group2 => s.waiting2

def withHolders (s : GroupMutexState) : TGroup → Nat → GroupMutexState
  | .group1, n => { s with holders1 := n }
  | .group2, n => { s with holders2 := n }

def withWaiting (s : GroupMutexState) : TGroup → Nat → GroupMutexState
  | .group1, n => { s with waiting1 := n }
  | .group2, n => { s with waiting2 := n }

end GroupMutexState

/-- A cohort may pass `lock`'s gate when the token is unheld or already held
by it, and it is not bypassing a handoff to the opposing cohort. -/
def canAcquire (g : TGroup) (s : GroupMutexState) : Prop :=
  (s.flag = none ∨ s.flag = some g) ∧ (s.next = none ∨ s.next = some g)

instance (g : TGroup) (s : GroupMutexState) : Decidable (canAcquire g s) := by
  unfold canAcquire; infer_instance

/-- The atomic operations of the Group Mutex: a thread of cohort `g` starts
waiting in `lock`, a waiting thread passes the gate and acquires, or a holder
releases in `unlock`. -/
inductive GMLabel where
  | arrive (g : TGroup)
  | acquire (g : TGroup)
  | release (g : TGroup)
deriving DecidableEq

/-- The transition function of the Group Mutex model; `none` when the labelled
operation is not enabled in `s`. -/
def gmStep : GMLabel → GroupMutexState → Option GroupMutexState
  | .arrive g, s => some (s.withWaiting g (s.waitingOf g + 1))
  | .acquire g, s =>
    if canAcquire g s ∧ 0 < s.waitingOf g then
      some { (s.withHolders g (s.holdersOf g + 1)).withWaiting g (s.waitingOf g - 1) with
             flag := some g, next := none }
    else none
  | .release g, s =>
    if 0 < s.holdersOf g then
      let s1 := s.withHolders g (s.holdersOf g - 1)
      if s1.holdersOf g + s1.holdersOf g.opposing = 0 then
        if 0 < s1.waitingOf g.opposing then
          some { s1 with flag := none, next := some g.opposing }
        else
          some { s1 with flag := none, next := none }
      else some s1
    else none

/-- The freshly constructed `GroupMutex`: token unheld, no holders, nobody
waiting. -/
def gmInit : GroupMutexState :=
  { flag := none, next := none, holders1 := 0, holders2 := 0, waiting1 := 0, waiting2 := 0 }

/-- The states the Group Mutex can reach from construction through any
interleaving of its atomic operations. -/
def gmReach (s : GroupMutexState) : Prop :=
  Relation.ReflTransGen (fun a b => ∃ l, gmStep l a = some b) gmInit s

/-! ## Guest-to-host priority mapping (`KThread::UpdatePriority`, KThread.cpp)

The C++ computes in single-precision floating point:
`int8_t(first + ((float(second - first) / float(63 - 0)) * (float(priority) - 0)))`.
The arithmetic is modelled exactly: `roundF32` is the rational semantics of
IEEE-754 binary32 round-to-nearest-even (the values involved are far from the
overflow and subnormal ranges), and the final cast truncates toward zero. -/

/-- Fuelled base-2 logarithm on `Nat` (structurally recursive so that proofs
can evaluate it; `log2Fuel n n = Nat.log2 n` for every `n`). -/
def log2Fuel : Nat → Nat → Nat
  | 0, _ => 0
  | fuel + 1, n => if 2 ≤ n then log2Fuel fuel (n / 2) + 1 else 0

/-- The value `⌊log₂ n⌋` (0 at 0). -/
def natLog2 (n : Nat) : Nat := log2Fuel n n

/-- The value `⌊log₂ q⌋` for a positive rational, computed from the bit lengths of the
numerator and denominator with a two-sided correction. -/
def floorLog2Rat (q : ℚ) : ℤ :=
  let e : ℤ := (natLog2 q.num.natAbs : ℤ) - (natLog2 q.den : ℤ)
  if (2 : ℚ) ^ (e + 1) ≤ q then e + 1
  else if q < (2 : ℚ) ^ e then e - 1
  else e

/-- Round a rational to the nearest integer, ties to even. -/
def roundHalfEven (x : ℚ) : ℤ :=
  let f := ⌊x⌋
  let r := x - f
  if r < 1 / 2 then f
  else if 1 / 2 < r then f + 1
  else if f % 2 = 0 then f
  else f + 1

/-- Exact value of rounding a rational to IEEE-754 binary32 (24-bit
significand, round to nearest, ties to even); no overflow or subnormal
handling, which the priority computation never reaches. -/
def roundF32 (q : ℚ) : ℚ :=
  if q = 0 then 0
  else
    let sgn : ℚ := if q < 0 then -1 else 1
    let a : ℚ := |q|
    let e := floorLog2Rat a
    sgn * (roundHalfEven (a * 2 ^ (23 - e)) : ℚ) * 2 ^ (e - 23)

/-- Truncation toward zero, the semantics of C++ float-to-integer casts. -/
def ratTrunc (q : ℚ) : ℤ := if q < 0 then ⌈q⌉ else ⌊q⌋

/-- The constant `constant::AndroidPriority` (common.h): the range of priority for Android. -/
def AndroidPriority : Int × Int := (19, -8)

/-- The constant `constant::SwitchPriority` (common.h): the range of priority for the
Nintendo Switch. -/
def SwitchPriority : Nat × Nat := (0, 63)

/-- The host priority computed by `KThread::UpdatePriority` (KThread.cpp lines
35-41) for a guest priority. -/
def UpdatePriority (priority : Nat) : Int :=
  let c := roundF32 (((AndroidPriority.2 - AndroidPriority.1 : Int) : ℚ) /
    (((SwitchPriority.2 : Int) - (SwitchPriority.1 : Int) : Int) : ℚ))
  let t := roundF32 (c * ((priority : ℚ) - (SwitchPriority.1 : ℚ)))
  let r := roundF32 (((AndroidPriority.1 : Int) : ℚ) + t)
  ratTrunc r

/-- The inductive invariant of the Group Mutex bookkeeping: any cohort with a
positive holder count is the cohort recorded in `flag` (so holders of both
cohorts can never coexist and a held mutex is never flagged `None`). -/
def gmInv (s : GroupMutexState) : Prop :=
  (0 < s.holders1 → s.flag = some TGroup.group1) ∧
  (0 < s.holders2 → s.flag = some TGroup.group2)

/-! ## Concrete instances used to evaluate the theorems -/

/-- An executable whose text section size (4 bytes) is not page-aligned. -/
def misalignedExecutable : Executable :=
  { text := { contents := [.other 0], offset := 0 },
    ro := { contents := [], offset := 0 },
    data := { contents := [], offset := 0 },
    bssSize := 0 }

/-- A patch configuration whose host counter frequency equals the Tegra X1
reference frequency. -/
def cfgHostMatched : PatchConfig :=
  { frequency := 19200000, nSave := 2, nLoad := 2, nSvcH := 2, nRescale := 2,
    baseAddress := 0x8000000, offset0 := -65536 }

/-- A patch configuration whose host counter frequency differs from the Tegra
X1 reference frequency. -/
def cfgHostMismatched : PatchConfig :=
  { frequency := 24000000, nSave := 2, nLoad := 2, nSvcH := 2, nRescale := 2,
    baseAddress := 0x8000000, offset0 := -65536 }

/-! ## Patch-loop lemmas -/

theorem step_out_eq (cfg : PatchConfig) (i : Nat) (w : GuestInstr) (s : PatchState) :
    ∃ x, (step cfg i w s).out = s.out ++ [x] := by
  cases w with
  | svc imm => exact ⟨_, rfl⟩
  | mrs srcReg destReg =>
    simp only [step, stepTpidr, stepCntpct, stepCntfrq, stepKeep]
    split_ifs <;> exact ⟨_, rfl⟩
  | other v => exact ⟨_, rfl⟩

theorem step_patch_grows (cfg : PatchConfig) (i : Nat) (w : GuestInstr) (s : PatchState) :
    s.patch <+: (step cfg i w s).patch := by
  cases w <;>
    simp only [step, stepSvc, stepTpidr, stepCntpct, stepCntfrq, stepKeep] <;>
    (try split_ifs) <;>
    simp [List.append_assoc]

theorem patchLoop_out_length (cfg : PatchConfig) :
    ∀ (l : List GuestInstr) (i : Nat) (s : PatchState),
    (patchLoop cfg l i s).out.length = s.out.length + l.length
  | [], _, _ => by simp [patchLoop]
  | w :: rest, i, s => by
    obtain ⟨x, hx⟩ := step_out_eq cfg i w s
    simp only [patchLoop, patchLoop_out_length cfg rest (i + 1) (step cfg i w s), hx]
    simp
    omega

theorem patchLoop_out_grows (cfg : PatchConfig) :
    ∀ (l : List GuestInstr) (i : Nat) (s : PatchState), s.out <+: (patchLoop cfg l i s).out
  | [], _, _ => List.prefix_refl _
  | w :: rest, i, s => by
    obtain ⟨x, hx⟩ := step_out_eq cfg i w s
    have h1 : s.out <+: (step cfg i w s).out := hx ▸ List.prefix_append _ _
    exact h1.trans (patchLoop_out_grows cfg rest (i + 1) (step cfg i w s))

theorem patchLoop_patch_grows (cfg : PatchConfig) :
    ∀ (l : List GuestInstr) (i : Nat) (s : PatchState), s.patch <+: (patchLoop cfg l i s).patch
  | [], _, _ => List.prefix_refl _
  | w :: rest, i, s =>
    (step_patch_grows cfg i w s).trans
      (patchLoop_patch_grows cfg rest (i + 1) (step cfg i w s))

theorem step_inv (cfg : PatchConfig) (i : Nat) (w : GuestInstr) (s : PatchState)
    (h : PatchInv cfg s i) : PatchInv cfg (step cfg i w s) (i + 1) := by
  obtain ⟨h1, h2⟩ := h
  unfold PatchInv
  cases w <;>
    simp only [step, stepSvc, stepTpidr, stepCntpct, stepCntfrq, stepKeep, MoveU64Reg,
      MoveU32Reg, TegraX1Freq] <;>
    (try split_ifs) <;>
    constructor <;>
    simp [List.length_append] <;>
    push_cast <;>
    omega

theorem patchLoop_inv (cfg : PatchConfig) :
    ∀ (l : List GuestInstr) (i : Nat) (s : PatchState),
    PatchInv cfg s i → PatchInv cfg (patchLoop cfg l i s) (i + l.length)
  | [], _, _, h => by simpa [patchLoop] using h
  | w :: rest, i, s, h => by
    have hr := patchLoop_inv cfg rest (i + 1) (step cfg i w s) (step_inv cfg i w s h)
    have : i + 1 + rest.length = i + (w :: rest).length := by simp; omega
    simpa [patchLoop, this] using hr

theorem patchInit_inv (cfg : PatchConfig) : PatchInv cfg (patchInit cfg) 0 := by
  constructor <;> simp [patchInit, initPatch] <;> push_cast <;> ring

theorem patchLoop_append (cfg : PatchConfig) :
    ∀ (l₁ l₂ : List GuestInstr) (i : Nat) (s : PatchState),
    patchLoop cfg (l₁ ++ l₂) i s = patchLoop cfg l₂ (i + l₁.length) (patchLoop cfg l₁ i s)
  | [], _, _, _ => by simp [patchLoop]
  | w :: rest, l₂, i, s => by
    simp only [List.cons_append, patchLoop, List.append_eq]
    rw [patchLoop_append cfg rest l₂ (i + 1) (step cfg i w s)]
    have : i + 1 + rest.length = i + (w :: rest).length := by simp; omega
    rw [this]

theorem patchLoop_site (cfg : PatchConfig) (code : List GuestInstr) (i : Nat) (w : GuestInstr)
    (h : code[i]? = some w) (s : PatchState) :
    patchLoop cfg code 0 s =
      patchLoop cfg (code.drop (i + 1)) (i + 1)
        (step cfg i w (patchLoop cfg (code.take i) 0 s)) := by
  have hlt : i < code.length := by
    by_contra hc
    rw [List.getElem?_eq_none (Nat.le_of_not_lt hc)] at h
    exact Option.noConfusion h
  have hw : code[i] = w := by
    rw [List.getElem?_eq_getElem hlt] at h
    exact Option.some.inj h
  have hdrop : code.drop i = w :: code.drop (i + 1) := by
    rw [List.drop_eq_getElem_cons hlt, hw]
  have hlen : (code.take i).length = i := by
    rw [List.length_take]
    omega
  conv_lhs => rw [← List.take_append_drop i code, hdrop]
  rw [patchLoop_append]
  simp [patchLoop, hlen]

theorem patchCode_out_length (cfg : PatchConfig) (code : List GuestInstr) :
    (PatchCode cfg code).1.length = code.length := by
  simp [PatchCode, patchLoop_out_length, patchInit]

theorem drop_take_append {α : Type} (l₁ l₂ l₃ : List α) (n k : Nat) (h1 : l₁.length = n)
    (h2 : l₂.length = k) : ((l₁ ++ l₂ ++ l₃).drop n).take k = l₂ := by
  subst h1 h2
  rw [List.append_assoc, List.drop_left, List.take_left]

theorem getElem?_append_middle {α : Type} (l₁ : List α) (x : α) (l₂ : List α) (n : Nat)
    (h : l₁.length = n) : (l₁ ++ [x] ++ l₂)[n]? = some x := by
  subst h
  rw [List.append_assoc, List.getElem?_append_right (Nat.le_refl _)]
  simp

/-! ## C1: supervisor-call trampolines -/

/-- C1: every supervisor-call site `i` of the stream is replaced by a branch
into a freshly appended trampoline whose words are exactly
`STR LR, [SP, #-16]!`, `BL` to the save-context routine, the materialization
of the guest program counter of the site (base address plus site index) into
X0, `MOVZ W1, #imm`, `BL` to the supervisor-call-handler stub, `BL` to the
load-context routine, `LDR LR, [SP], #16` and a final `B`; the cumulative
branch displacements resolve to the patch-buffer prologue routines and the
final branch resolves to the address of the original site plus 4.
(`MoveU64Reg` emits four words, so the trampoline starts at patch-buffer
index `T := (patchAfter cfg code i).length` and its words sit at indices
`T` through `T + 10`.) -/
theorem svc_site_trampoline (cfg : PatchConfig) (code : List GuestInstr) (i imm : Nat)
    (h : code[i]? = some (.svc imm)) :
    (PatchCode cfg code).1[i]? =
      some (.branch (cfg.offset0 + 4 * ((patchAfter cfg code i).length : Int) - 4 * (i : Int))) ∧
    codeAddr cfg i + (cfg.offset0 + 4 * ((patchAfter cfg code i).length : Int) - 4 * (i : Int)) =
      patchAddr cfg (patchAfter cfg code i).length ∧
    ((PatchCode cfg code).2.drop (patchAfter cfg code i).length).take 11 =
      [.strLr, .bl (-4 * ((patchAfter cfg code i).length : Int) - 4)] ++
        MoveU64Reg 0 (cfg.baseAddress + i) ++
        [.movz true 1 (imm % 2 ^ 16) 0,
         .bl (4 * (cfg.nSave : Int) + 4 * (cfg.nLoad : Int) -
           4 * ((patchAfter cfg code i).length : Int) - 28),
         .bl (4 * (cfg.nSave : Int) - 4 * ((patchAfter cfg code i).length : Int) - 32),
         .ldrLr,
         .b (-cfg.offset0 - 4 * ((patchAfter cfg code i).length : Int) + 4 * (i : Int) - 36)] ∧
    patchAddr cfg ((patchAfter cfg code i).length + 1) +
        (-4 * ((patchAfter cfg code i).length : Int) - 4) = patchBase cfg ∧
    patchAddr cfg ((patchAfter cfg code i).length + 7) +
        (4 * (cfg.nSave : Int) + 4 * (cfg.nLoad : Int) -
          4 * ((patchAfter cfg code i).length : Int) - 28) =
      patchBase cfg + 4 * (cfg.nSave : Int) + 4 * (cfg.nLoad : Int) ∧
    patchAddr cfg ((patchAfter cfg code i).length + 8) +
        (4 * (cfg.nSave : Int) - 4 * ((patchAfter cfg code i).length : Int) - 32) =
      patchBase cfg + 4 * (cfg.nSave : Int) ∧
    patchAddr cfg ((patchAfter cfg code i).length + 10) +
        (-cfg.offset0 - 4 * ((patchAfter cfg code i).length : Int) + 4 * (i : Int) - 36) =
      codeAddr cfg i + 4 := by
  have hlt : i < code.length := by
    by_contra hc
    rw [List.getElem?_eq_none (Nat.le_of_not_lt hc)] at h
    exact Option.noConfusion h
  have hlen : (code.take i).length = i := by
    rw [List.length_take]
    omega
  set sk := patchLoop cfg (code.take i) 0 (patchInit cfg) with hsk
  have hT : patchAfter cfg code i = sk.patch := rfl
  have hinv : PatchInv cfg sk i := by
    have h0 := patchLoop_inv cfg (code.take i) 0 (patchInit cfg) (patchInit_inv cfg)
    rwa [hlen, Nat.zero_add] at h0
  obtain ⟨ho, hp⟩ := hinv
  have hlen_out : sk.out.length = i := by
    rw [hsk, patchLoop_out_length]
    simp [patchInit, hlen]
  have hsplit := patchLoop_site cfg code i _ h (patchInit cfg)
  set s1 := step cfg i (.svc imm) sk with hs1
  set S := patchLoop cfg (code.drop (i + 1)) (i + 1) s1 with hS
  have hfin1 : (PatchCode cfg code).1 = S.out := by
    rw [PatchCode, hsplit]
  have hfin2 : (PatchCode cfg code).2 = S.patch := by
    rw [PatchCode, hsplit]
  obtain ⟨o2, ho2⟩ := patchLoop_out_grows cfg (code.drop (i + 1)) (i + 1) s1
  obtain ⟨p2, hp2⟩ := patchLoop_patch_grows cfg (code.drop (i + 1)) (i + 1) s1
  have hs1out : s1.out = sk.out ++ [.branch sk.offset] := rfl
  have hout : (PatchCode cfg code).1[i]? = some (.branch sk.offset) := by
    rw [hfin1, ← ho2, hs1out, List.append_assoc, ← List.append_assoc,
      getElem?_append_middle _ _ _ _ hlen_out]
  refine ⟨?_, ?_, ?_, ?_, ?_, ?_, ?_⟩
  · rw [hout, hT, ho]
  · simp only [codeAddr, patchAddr, patchBase, hT]
    push_cast
    ring
  · have hs1patch : s1.patch = sk.patch ++
        ([.strLr, .bl (-4 * (sk.patch.length : Int) - 4)] ++
          MoveU64Reg 0 (cfg.baseAddress + i) ++
          [.movz true 1 (imm % 2 ^ 16) 0,
           .bl (4 * (cfg.nSave : Int) + 4 * (cfg.nLoad : Int) -
             4 * (sk.patch.length : Int) - 28),
           .bl (4 * (cfg.nSave : Int) - 4 * (sk.patch.length : Int) - 32),
           .ldrLr,
           .b (-cfg.offset0 - 4 * (sk.patch.length : Int) + 4 * (i : Int) - 36)]) := by
      simp only [hs1, step, stepSvc, MoveU64Reg, List.append_assoc, List.cons_append,
        List.nil_append]
      congr 1
      simp only [List.cons.injEq, PatchWord.bl.injEq, PatchWord.b.injEq, and_true, true_and,
        List.length_cons, List.length_nil]
      refine ⟨by omega, by omega, by omega, by omega⟩
    rw [hfin2, ← hp2, hs1patch, hT]
    exact drop_take_append _ _ _ _ _ rfl (by simp [MoveU64Reg])
  · simp only [patchAddr, patchBase]
    push_cast
    ring
  · simp only [patchAddr, patchBase]
    push_cast
    ring
  · simp only [patchAddr, patchBase]
    push_cast
    ring
  · simp only [patchAddr, patchBase, codeAddr]
    push_cast
    ring

/-- Witness for C1: for the one-instruction stream `[SVC #7]` at site 0, the
trampoline's final branch resolves to the address of the site plus 4. -/
theorem svc_site_trampoline_witness :
    patchAddr cfgHostMatched ((patchAfter cfgHostMatched [GuestInstr.svc 7] 0).length + 10) +
        (-cfgHostMatched.offset0 -
          4 * ((patchAfter cfgHostMatched [GuestInstr.svc 7] 0).length : Int) +
          4 * ((0 : Nat) : Int) - 36) =
      codeAddr cfgHostMatched 0 + 4 :=
  (svc_site_trampoline cfgHostMatched [GuestInstr.svc 7] 0 7 rfl).2.2.2.2.2.2

/-! ## C4 and C5: privileged counter-register reads -/

theorem patchAfter_succ (cfg : PatchConfig) (code : List GuestInstr) (i : Nat) (w : GuestInstr)
    (h : code[i]? = some w) :
    patchAfter cfg code (i + 1) =
      (step cfg i w (patchLoop cfg (code.take i) 0 (patchInit cfg))).patch := by
  have hlt : i < code.length := by
    by_contra hc
    rw [List.getElem?_eq_none (Nat.le_of_not_lt hc)] at h
    exact Option.noConfusion h
  have hlen : (code.take i).length = i := by
    rw [List.length_take]
    omega
  unfold patchAfter
  rw [List.take_succ, h, patchLoop_append]
  simp [patchLoop, hlen]

/-- C4 (amended): a privileged read of the counter frequency register is
replaced with a branch into a trampoline that materializes the fixed
reference frequency 19200000 into the destination register and branches back
to the address of the site plus 4 — but only when the host counter frequency
differs from the reference frequency (`MoveU32Reg` emits two words, so the
trampoline occupies patch-buffer indices `T` to `T + 2` with
`T := (patchAfter cfg code i).length`). -/
theorem cntfrq_trampoline (cfg : PatchConfig) (code : List GuestInstr) (i d : Nat)
    (hfreq : cfg.frequency ≠ TegraX1Freq) (h : code[i]? = some (.mrs CntfrqEl0 d)) :
    (PatchCode cfg code).1[i]? =
      some (.branch (cfg.offset0 + 4 * ((patchAfter cfg code i).length : Int) - 4 * (i : Int))) ∧
    codeAddr cfg i + (cfg.offset0 + 4 * ((patchAfter cfg code i).length : Int) - 4 * (i : Int)) =
      patchAddr cfg (patchAfter cfg code i).length ∧
    ((PatchCode cfg code).2.drop (patchAfter cfg code i).length).take 3 =
      MoveU32Reg d TegraX1Freq ++
        [.b (-cfg.offset0 - 4 * ((patchAfter cfg code i).length : Int) + 4 * (i : Int) - 4)] ∧
    patchAddr cfg ((patchAfter cfg code i).length + 2) +
        (-cfg.offset0 - 4 * ((patchAfter cfg code i).length : Int) + 4 * (i : Int) - 4) =
      codeAddr cfg i + 4 := by
  have hfreq2 : ¬(cfg.frequency = 19200000) := by simpa [TegraX1Freq] using hfreq
  have hlt : i < code.length := by
    by_contra hc
    rw [List.getElem?_eq_none (Nat.le_of_not_lt hc)] at h
    exact Option.noConfusion h
  have hlen : (code.take i).length = i := by
    rw [List.length_take]
    omega
  set sk := patchLoop cfg (code.take i) 0 (patchInit cfg) with hsk
  have hT : patchAfter cfg code i = sk.patch := rfl
  have hinv : PatchInv cfg sk i := by
    have h0 := patchLoop_inv cfg (code.take i) 0 (patchInit cfg) (patchInit_inv cfg)
    rwa [hlen, Nat.zero_add] at h0
  obtain ⟨ho, hp⟩ := hinv
  have hlen_out : sk.out.length = i := by
    rw [hsk, patchLoop_out_length]
    simp [patchInit, hlen]
  have hsplit := patchLoop_site cfg code i _ h (patchInit cfg)
  set s1 := step cfg i (.mrs CntfrqEl0 d) sk with hs1
  set S := patchLoop cfg (code.drop (i + 1)) (i + 1) s1 with hS
  have hfin1 : (PatchCode cfg code).1 = S.out := by
    rw [PatchCode, hsplit]
  have hfin2 : (PatchCode cfg code).2 = S.patch := by
    rw [PatchCode, hsplit]
  obtain ⟨o2, ho2⟩ := patchLoop_out_grows cfg (code.drop (i + 1)) (i + 1) s1
  obtain ⟨p2, hp2⟩ := patchLoop_patch_grows cfg (code.drop (i + 1)) (i + 1) s1
  have hs1out : s1.out = sk.out ++ [.branch sk.offset] := by
    simp [hs1, step, stepCntfrq, TpidrroEl0, CntfrqEl0, CntpctEl0, TegraX1Freq, hfreq2]
  have hout : (PatchCode cfg code).1[i]? = some (.branch sk.offset) := by
    rw [hfin1, ← ho2, hs1out, List.append_assoc, ← List.append_assoc,
      getElem?_append_middle _ _ _ _ hlen_out]
  refine ⟨?_, ?_, ?_, ?_⟩
  · rw [hout, hT, ho]
  · simp only [codeAddr, patchAddr, patchBase, hT]
    push_cast
    ring
  · have hs1patch : s1.patch = sk.patch ++
        (MoveU32Reg d TegraX1Freq ++
          [.b (-cfg.offset0 - 4 * (sk.patch.length : Int) + 4 * (i : Int) - 4)]) := by
      simp [hs1, step, stepCntfrq, MoveU32Reg, TpidrroEl0, CntfrqEl0, CntpctEl0,
        TegraX1Freq, hfreq2, List.append_assoc]
      omega
    rw [hfin2, ← hp2, hs1patch, hT]
    exact drop_take_append _ _ _ _ _ rfl (by simp [MoveU32Reg])
  · simp only [patchAddr, patchBase, codeAddr]
    push_cast
    ring

/-- Counterexample for C4 as frozen: with the host counter frequency equal to
the reference frequency, a CNTFRQ_EL0 read is NOT replaced — the instruction
stays in place and nothing is appended to the patch buffer — so the
replacement is not independent of the host frequency. -/
theorem cntfrq_counterexample :
    (PatchCode cfgHostMatched [GuestInstr.mrs CntfrqEl0 3]).1 =
      [.orig (.mrs CntfrqEl0 3)] ∧
    (PatchCode cfgHostMatched [GuestInstr.mrs CntfrqEl0 3]).2 = initPatch cfgHostMatched := by
  constructor <;> rfl

/-- Witness for C4's amended theorem at a mismatched host frequency. -/
theorem cntfrq_trampoline_witness :
    patchAddr cfgHostMismatched
        ((patchAfter cfgHostMismatched [GuestInstr.mrs CntfrqEl0 3] 0).length + 2) +
        (-cfgHostMismatched.offset0 -
          4 * ((patchAfter cfgHostMismatched [GuestInstr.mrs CntfrqEl0 3] 0).length : Int) +
          4 * ((0 : Nat) : Int) - 4) =
      codeAddr cfgHostMismatched 0 + 4 :=
  (cntfrq_trampoline cfgHostMismatched [GuestInstr.mrs CntfrqEl0 3] 0 3 (by decide) rfl).2.2.2

/-- C5: when the host counter frequency equals the reference frequency, a
privileged CNTPCT_EL0 read is rewritten in place into a CNTVCT_EL0 read with
the same destination register, and processing that site leaves the patch
buffer unchanged. -/
theorem cntpct_inplace_rewrite (cfg : PatchConfig) (code : List GuestInstr) (i d : Nat)
    (hfreq : cfg.frequency = TegraX1Freq) (h : code[i]? = some (.mrs CntpctEl0 d)) :
    (PatchCode cfg code).1[i]? = some (.orig (.mrs CntvctEl0 d)) ∧
    patchAfter cfg code (i + 1) = patchAfter cfg code i := by
  have hlt : i < code.length := by
    by_contra hc
    rw [List.getElem?_eq_none (Nat.le_of_not_lt hc)] at h
    exact Option.noConfusion h
  have hlen : (code.take i).length = i := by
    rw [List.length_take]
    omega
  set sk := patchLoop cfg (code.take i) 0 (patchInit cfg) with hsk
  have hT : patchAfter cfg code i = sk.patch := rfl
  have hlen_out : sk.out.length = i := by
    rw [hsk, patchLoop_out_length]
    simp [patchInit, hlen]
  have hsplit := patchLoop_site cfg code i _ h (patchInit cfg)
  set s1 := step cfg i (.mrs CntpctEl0 d) sk with hs1
  have hstep : s1.out = sk.out ++ [.orig (.mrs CntvctEl0 d)] ∧ s1.patch = sk.patch := by
    constructor <;>
      simp [hs1, step, stepKeep, TpidrroEl0, CntfrqEl0, CntpctEl0, CntvctEl0, TegraX1Freq, hfreq]
  obtain ⟨o2, ho2⟩ := patchLoop_out_grows cfg (code.drop (i + 1)) (i + 1) s1
  constructor
  · rw [PatchCode, hsplit, ← ho2, hstep.1, List.append_assoc, ← List.append_assoc,
      getElem?_append_middle _ _ _ _ hlen_out]
  · rw [patchAfter_succ cfg code i _ h, hT]
    exact hstep.2

/-- Witness for C5: a concrete CNTPCT_EL0 read at a matched host frequency. -/
theorem cntpct_inplace_rewrite_witness :
    (PatchCode cfgHostMatched [GuestInstr.mrs CntpctEl0 5]).1[0]? =
      some (.orig (.mrs CntvctEl0 5)) ∧
    patchAfter cfgHostMatched [GuestInstr.mrs CntpctEl0 5] (0 + 1) =
      patchAfter cfgHostMatched [GuestInstr.mrs CntpctEl0 5] 0 :=
  cntpct_inplace_rewrite cfgHostMatched [GuestInstr.mrs CntpctEl0 5] 0 5 rfl rfl

/-! ## C7: loader alignment checks -/

/-- C7: when any section size (text, read-only, data+bss) or any section
offset is not page-aligned, `LoadExecutable` returns the corresponding
alignment error: `PatchCode` is never invoked, no patch buffer is produced
and nothing is mapped or written (the error constructor carries no
`LoadResult`). -/
theorem loadExecutable_misaligned_aborts (frequency nSave nLoad nSvcH nRescale : Nat)
    (ex : Executable) (offset : Nat)
    (h : ¬(PageAligned (4 * ex.text.contents.length) = true ∧
           PageAligned (4 * ex.ro.contents.length) = true ∧
           PageAligned (4 * ex.data.contents.length + ex.bssSize) = true ∧
           PageAligned ex.text.offset = true ∧
           PageAligned ex.ro.offset = true ∧
           PageAligned ex.data.offset = true)) :
    LoadExecutable frequency nSave nLoad nSvcH nRescale ex offset =
      .error (if PageAligned (4 * ex.text.contents.length) ∧
                 PageAligned (4 * ex.ro.contents.length) ∧
                 PageAligned (4 * ex.data.contents.length + ex.bssSize)
              then .sectionOffsetMisaligned ex.text.offset ex.ro.offset ex.data.offset
              else .sectionSizeMisaligned (4 * ex.text.contents.length)
                (4 * ex.ro.contents.length) (4 * ex.data.contents.length + ex.bssSize)) := by
  by_cases hsz : PageAligned (4 * ex.text.contents.length) = true ∧
      PageAligned (4 * ex.ro.contents.length) = true ∧
      PageAligned (4 * ex.data.contents.length + ex.bssSize) = true
  · by_cases hof : PageAligned ex.text.offset = true ∧ PageAligned ex.ro.offset = true ∧
        PageAligned ex.data.offset = true
    · exact absurd ⟨hsz.1, hsz.2.1, hsz.2.2, hof.1, hof.2.1, hof.2.2⟩ h
    · simp only [LoadExecutable]
      rw [if_neg (not_not_intro hsz), if_pos hof, if_pos hsz]
  · simp only [LoadExecutable]
    rw [if_pos hsz, if_neg hsz]

/-- Witness for C7: a text section of 4 bytes is rejected with a
size-alignment error. -/
theorem loadExecutable_misaligned_aborts_witness :
    LoadExecutable 19200000 2 2 2 2 misalignedExecutable 0 =
      .error (if PageAligned (4 * misalignedExecutable.text.contents.length) ∧
                 PageAligned (4 * misalignedExecutable.ro.contents.length) ∧
                 PageAligned (4 * misalignedExecutable.data.contents.length +
                   misalignedExecutable.bssSize)
              then .sectionOffsetMisaligned misalignedExecutable.text.offset
                misalignedExecutable.ro.offset misalignedExecutable.data.offset
              else .sectionSizeMisaligned (4 * misalignedExecutable.text.contents.length)
                (4 * misalignedExecutable.ro.contents.length)
                (4 * misalignedExecutable.data.contents.length +
                  misalignedExecutable.bssSize)) :=
  loadExecutable_misaligned_aborts 19200000 2 2 2 2 misalignedExecutable 0 (by decide)

/-! ## C8: guest-to-host priority mapping -/

set_option maxRecDepth 40000 in
unseal Rat.add Rat.mul Rat.sub Rat.inv in
theorem updatePriority_adjacent (p : Nat) (hp : p < 63) :
    UpdatePriority (p + 1) ≤ UpdatePriority p := by
  revert p hp
  decide

set_option maxRecDepth 40000 in
unseal Rat.add Rat.mul Rat.sub Rat.inv in
theorem updatePriority_range (p : Nat) (hp : p < 64) :
    -8 ≤ UpdatePriority p ∧ UpdatePriority p ≤ 19 := by
  revert p hp
  decide

unseal Rat.add Rat.mul Rat.sub Rat.inv in
theorem updatePriority_endpoints : UpdatePriority 0 = 19 ∧ UpdatePriority 63 = -8 := by
  constructor <;> decide

theorem updatePriority_le_of_le : ∀ (d A : Nat), A + d ≤ 63 →
    UpdatePriority (A + d) ≤ UpdatePriority A
  | 0, _, _ => le_refl _
  | d + 1, A, h => by
    have h1 : UpdatePriority (A + d + 1) ≤ UpdatePriority (A + d) :=
      updatePriority_adjacent (A + d) (by omega)
    have h2 := updatePriority_le_of_le d A (by omega)
    calc UpdatePriority (A + (d + 1)) = UpdatePriority (A + d + 1) := by ring_nf
    _ ≤ UpdatePriority (A + d) := h1
    _ ≤ UpdatePriority A := h2

/-- C8: `KThread::UpdatePriority` rescales the guest priority range `[0, 63]`
onto the host range written `[19, -8]` (guest 0 maps to host 19, guest 63 to
host -8, every image lies between -8 and 19), and it is monotone in the
favorable direction under the spec's inverted host sense: for guest
priorities `A < B` (A numerically better), the host value for `A` is at
least the host value for `B`.  The single-precision float arithmetic of the
C++ is modelled exactly by `roundF32`. -/
theorem updatePriority_monotone (A B : Nat) (hAB : A < B) (hB : B ≤ 63) :
    UpdatePriority B ≤ UpdatePriority A ∧
    UpdatePriority 0 = 19 ∧ UpdatePriority 63 = -8 ∧
    -8 ≤ UpdatePriority B ∧ UpdatePriority A ≤ 19 := by
  have hmono : UpdatePriority B ≤ UpdatePriority A := by
    have h1 := updatePriority_le_of_le (B - A) A (by omega)
    have h2 : A + (B - A) = B := by omega
    rwa [h2] at h1
  refine ⟨hmono, updatePriority_endpoints.1, updatePriority_endpoints.2, ?_, ?_⟩
  · exact (updatePriority_range B (by omega)).1
  · exact (updatePriority_range A (by omega)).2

/-- Witness for C8 at the extreme guest priorities. -/
theorem updatePriority_monotone_witness :
    UpdatePriority 63 ≤ UpdatePriority 0 ∧
    UpdatePriority 0 = 19 ∧ UpdatePriority 63 = -8 ∧
    -8 ≤ UpdatePriority 63 ∧ UpdatePriority 0 ≤ 19 :=
  updatePriority_monotone 0 63 (by decide) (by decide)

/-! ## C2: injected function calls -/

/-- C2 (amended): `ExecuteFunctionCtx` writes the selector into `commandId`
first, then snapshots the thread's registers, waits until the thread parks in
`WaitInit`/`WaitKernel`, overwrites the registers with the call's arguments,
sets state to `WaitFunc`, waits until the thread parks again, copies the
resulting registers out to the caller and restores the pre-call snapshot;
afterwards the caller's registers hold exactly what the invoked routine left
in the context and `ctx.registers` equal the pre-call snapshot. -/
theorem executeFunctionCtx_roundtrip (guest : Registers → Registers) (call : Nat)
    (funcRegs : Registers) (ctx : ThreadContext) :
    (ExecuteFunctionCtx guest call funcRegs ctx).2.2 =
      [.writeCommandId call, .snapshotRegs, .waitParked, .writeArgRegs, .setStateWaitFunc,
       .waitReturn, .harvestRegs, .restoreRegs] ∧
    (ExecuteFunctionCtx guest call funcRegs ctx).1 = guest funcRegs ∧
    (ExecuteFunctionCtx guest call funcRegs ctx).2.1.registers = ctx.registers ∧
    (ExecuteFunctionCtx guest call funcRegs ctx).2.1.commandId = call :=
  ⟨rfl, rfl, rfl, rfl⟩

/-- Counterexample for C2 as frozen: at a concrete call, the event trace of
`ExecuteFunctionCtx` differs from the spec-claimed step order — the selector
write to `commandId` precedes the register snapshot and the first wait
instead of following them. -/
theorem executeFunctionCtx_order_counterexample :
    (ExecuteFunctionCtx (fun r => r) 7 ⟨1, 2, []⟩
        ⟨ThreadState.waitRun, 0, ⟨3, 4, []⟩, 0, 0, 0, 0⟩).2.2 ≠
      specClaimedEfcOrder 7 := by
  decide

/-! ## C9: injected calls on an exiting process -/

/-- C9: `NCE::ExecuteFunction` on a process whose status is `Exiting` fails
immediately with the fatal error, returning the caller's registers, the
thread context and the event trace untouched (nothing ran). -/
theorem nceExecuteFunction_exiting (guest : Registers → Registers) (call : Nat)
    (funcRegs : Registers) (ctx : ThreadContext) :
    NceExecuteFunction KProcessStatus.exiting guest call funcRegs ctx =
      (some NceError.executingOnExitingProcess, funcRegs, ctx, []) :=
  rfl

/-! ## C6: unknown supervisor-call numbers -/

/-- C6: when the watcher observes a parked supervisor call whose code has no
`SvcTable` entry (with `Halt` false and `Surface` present at both samples),
the iteration ends in a fatal error wrapping the offending code and leaves
the context untouched (the loop exits through the exception); the teardown
that follows kills only that guest thread, and sets `Halt` — inside a
`Group2` exclusive section — exactly when the thread is the process's primary
thread. -/
theorem kernelThread_unknown_svc (svcTable : Nat → Bool) (ctx : ThreadContext)
    (threadPid processPid : Nat)
    (hstate : ctx.state = ThreadState.waitKernel)
    (htable : svcTable (ctx.commandId % 2 ^ 16) = false) :
    KernelThreadIter svcTable false true false true ctx =
      (SvcOutcome.fatal (ctx.commandId % 2 ^ 16), ctx) ∧
    KernelThreadTeardown false threadPid processPid =
      (if threadPid = processPid then ⟨true, true, true⟩ else ⟨true, false, false⟩) := by
  constructor
  · simp [KernelThreadIter, hstate, show svcTable (ctx.commandId % 65536) = false from htable]
  · by_cases hpid : threadPid = processPid <;> simp [KernelThreadTeardown, hpid]

/-- Witness for C6: SVC 7 with an empty handler table on the primary thread. -/
theorem kernelThread_unknown_svc_witness :
    KernelThreadIter (fun _ => false) false true false true
        ⟨ThreadState.waitKernel, 7, ⟨0, 0, []⟩, 0, 0, 0, 0⟩ =
      (SvcOutcome.fatal
        ((⟨ThreadState.waitKernel, 7, ⟨0, 0, []⟩, 0, 0, 0, 0⟩ : ThreadContext).commandId %
          2 ^ 16),
       ⟨ThreadState.waitKernel, 7, ⟨0, 0, []⟩, 0, 0, 0, 0⟩) ∧
    KernelThreadTeardown false 5 5 =
      (if 5 = 5 then ⟨true, true, true⟩ else ⟨true, false, false⟩) :=
  kernelThread_unknown_svc (fun _ => false)
    ⟨ThreadState.waitKernel, 7, ⟨0, 0, []⟩, 0, 0, 0, 0⟩ 5 5 rfl rfl

/-! ## C10: the watcher's Halt/Surface guards -/

/-- C10: in every iteration of the watcher loop, a supervisor-call handler
runs exactly when `Halt` is false and `Surface` is present both before and
after acquiring the group mutex (and the context is parked in `WaitKernel`
with a table entry for the code); whenever `Surface` is absent — at either
sample — the iteration leaves the thread context completely unchanged, so the
guest thread stays parked. -/
theorem kernelThread_surface_guard (svcTable : Nat → Bool)
    (halt1 surface1 halt2 surface2 : Bool) (ctx : ThreadContext) :
    KernelThreadIter svcTable halt1 false halt2 surface2 ctx =
      ((if halt1 then SvcOutcome.breakHalt else SvcOutcome.skipNoSurface), ctx) ∧
    KernelThreadIter svcTable false true halt2 false
        { ctx with state := ThreadState.waitKernel } =
      ((if halt2 then SvcOutcome.breakHalt else SvcOutcome.skipNoSurface),
       { ctx with state := ThreadState.waitKernel }) ∧
    handlerRan (KernelThreadIter svcTable halt1 surface1 halt2 surface2 ctx).1 =
      (!halt1 && surface1 && !halt2 && surface2 &&
        decide (ctx.state = ThreadState.waitKernel) &&
        svcTable (ctx.commandId % 2 ^ 16)) := by
  refine ⟨?_, ?_, ?_⟩
  · cases halt1 <;> simp [KernelThreadIter]
  · cases halt2 <;> simp [KernelThreadIter]
  · by_cases hs : ctx.state = ThreadState.waitKernel <;>
      by_cases hc : ctx.state = ThreadState.guestCrash <;>
      by_cases ht : svcTable (ctx.commandId % 65536) = true <;>
      cases halt1 <;> cases surface1 <;> cases halt2 <;> cases surface2 <;>
      simp [KernelThreadIter, handlerRan, hs, hc, ht]

/-! ## C3: the Group Mutex -/

theorem gmStep_preserves_inv (l : GMLabel) (s t : GroupMutexState)
    (h : gmStep l s = some t) (hs : gmInv s) : gmInv t := by
  obtain ⟨h1, h2⟩ := hs
  cases l with
  | arrive g =>
    cases g <;>
      simp only [gmStep, GroupMutexState.withWaiting, Option.some.injEq] at h <;>
      subst h <;>
      exact ⟨h1, h2⟩
  | acquire g =>
    rw [gmStep] at h
    by_cases hc : canAcquire g s ∧ 0 < s.waitingOf g
    · rw [if_pos hc] at h
      obtain ⟨⟨hflag, _⟩, _⟩ := hc
      cases g <;>
        simp only [GroupMutexState.withHolders, GroupMutexState.withWaiting,
          Option.some.injEq] at h <;>
        subst h
      · refine ⟨fun _ => rfl, fun hh => ?_⟩
        rcases hflag with hf | hf <;> rw [h2 hh] at hf <;> simp at hf
      · refine ⟨fun hh => ?_, fun _ => rfl⟩
        rcases hflag with hf | hf <;> rw [h1 hh] at hf <;> simp at hf
    · rw [if_neg hc] at h
      exact Option.noConfusion h
  | release g =>
    rw [gmStep] at h
    by_cases hg : 0 < s.holdersOf g
    · rw [if_pos hg] at h
      cases g <;>
        simp only [GroupMutexState.withHolders, GroupMutexState.holdersOf,
          GroupMutexState.waitingOf, TGroup.opposing] at h hg <;>
        [skip; skip] <;>
        split_ifs at h with hz hw <;>
        simp only [Option.some.injEq] at h <;>
        subst h <;>
        constructor <;>
        intro hh <;>
        (try simp only [GroupMutexState.holdersOf] at *) <;>
        first
          | omega
          | exact absurd hh (by omega)
          | exact h1 (by omega)
          | exact h2 (by omega)
          | (exact absurd (h1 (by omega)) (by simp [h2 (by omega)]))
          | (exact absurd (h2 (by omega)) (by simp [h1 (by omega)]))
    · rw [if_neg hg] at h
      exact Option.noConfusion h

theorem gmReach_inv (s : GroupMutexState) (hs : gmReach s) : gmInv s := by
  induction hs with
  | refl => exact ⟨by simp [gmInit], by simp [gmInit]⟩
  | tail _ hbc ih =>
    obtain ⟨l, hl⟩ := hbc
    exact gmStep_preserves_inv l _ _ hl ih

/-- C3: in every reachable state of the Group Mutex, a cohort holding the
lock is the flagged cohort — so holders from Group1 and Group2 never coexist
and a held mutex is never flagged `None`; moreover, when a release drops the
holder count to zero while the opposing cohort has a waiter, the token is
handed off: `next` names the opposing cohort, which strictly blocks the
releasing cohort from re-acquiring while the opposing cohort may acquire. -/
theorem groupMutex_exclusion_handoff (s : GroupMutexState) (hs : gmReach s) :
    (0 < s.holders1 → s.flag = some TGroup.group1) ∧
    (0 < s.holders2 → s.flag = some TGroup.group2) ∧
    ¬(0 < s.holders1 ∧ 0 < s.holders2) ∧
    (0 < s.holders1 + s.holders2 → s.flag ≠ none) ∧
    (∀ (g : TGroup) (t : GroupMutexState), gmStep (.release g) s = some t →
      t.holdersOf g + t.holdersOf g.opposing = 0 →
      0 < t.waitingOf g.opposing →
      t.flag = none ∧ t.next = some g.opposing ∧
      decide (canAcquire g t) = false ∧ decide (canAcquire g.opposing t) = true) := by
  obtain ⟨h1, h2⟩ := gmReach_inv s hs
  have hexcl : ¬(0 < s.holders1 ∧ 0 < s.holders2) := by
    rintro ⟨hc1, hc2⟩
    have e1 := h1 hc1
    have e2 := h2 hc2
    rw [e1] at e2
    exact Option.noConfusion e2 (fun he => TGroup.noConfusion he)
  have hnotnone : 0 < s.holders1 + s.holders2 → s.flag ≠ none := by
    intro hsum
    by_cases hc1 : 0 < s.holders1
    · rw [h1 hc1]
      exact Option.noConfusion
    · rw [h2 (by omega)]
      exact Option.noConfusion
  refine ⟨h1, h2, hexcl, hnotnone, ?_⟩
  intro g t hrel hzero hwait
  have hmain : t.flag = none ∧ t.next = some g.opposing := by
    rw [gmStep] at hrel
    by_cases hg : 0 < s.holdersOf g
    · rw [if_pos hg] at hrel
      cases g <;>
        simp only [GroupMutexState.withHolders, GroupMutexState.holdersOf,
          GroupMutexState.waitingOf, TGroup.opposing] at hrel hzero hwait <;>
        split_ifs at hrel with hz hw <;>
        simp only [Option.some.injEq] at hrel <;>
        subst hrel <;>
        simp only [GroupMutexState.holdersOf, GroupMutexState.waitingOf,
          TGroup.opposing] at hzero hwait ⊢ <;>
        first
          | exact ⟨trivial, trivial⟩
          | exact absurd hwait hw
          | exact absurd hzero hz
    · rw [if_neg hg] at hrel
      exact Option.noConfusion hrel
  refine ⟨hmain.1, hmain.2, ?_, ?_⟩
  · cases g <;>
      simp [canAcquire, hmain.1, hmain.2, TGroup.opposing]
  · cases g <;>
      simp [canAcquire, hmain.1, hmain.2, TGroup.opposing]

/-- Witness for C3: in the reachable state with one Group1 holder and one
Group2 waiter the flag is Group1, and Group1's release hands the token to
Group2, which may acquire while Group1 may not. -/
theorem groupMutex_exclusion_handoff_witness :
    (⟨some TGroup.group1, none, 1, 0, 0, 1⟩ : GroupMutexState).flag =
      some TGroup.group1 ∧
    (⟨none, some TGroup.group1.opposing, 0, 0, 0, 1⟩ : GroupMutexState).flag = none ∧
    (⟨none, some TGroup.group1.opposing, 0, 0, 0, 1⟩ : GroupMutexState).next =
      some TGroup.group1.opposing ∧
    decide (canAcquire TGroup.group1
      (⟨none, some TGroup.group1.opposing, 0, 0, 0, 1⟩ : GroupMutexState)) = false ∧
    decide (canAcquire TGroup.group1.opposing
      (⟨none, some TGroup.group1.opposing, 0, 0, 0, 1⟩ : GroupMutexState)) = true :=
  by
  have r1 : gmReach ⟨none, none, 0, 0, 1, 0⟩ :=
    Relation.ReflTransGen.tail Relation.ReflTransGen.refl
      ⟨GMLabel.arrive TGroup.group1, by decide⟩
  have r2 : gmReach ⟨some TGroup.group1, none, 1, 0, 0, 0⟩ :=
    Relation.ReflTransGen.tail r1 ⟨GMLabel.acquire TGroup.group1, by decide⟩
  have r3 : gmReach ⟨some TGroup.group1, none, 1, 0, 0, 1⟩ :=
    Relation.ReflTransGen.tail r2 ⟨GMLabel.arrive TGroup.group2, by decide⟩
  have main := groupMutex_exclusion_handoff ⟨some TGroup.group1, none, 1, 0, 0, 1⟩ r3
  have hoff := main.2.2.2.2 TGroup.group1 ⟨none, some TGroup.group1.opposing, 0, 0, 0, 1⟩
    (by decide) (by decide) (by decide)
  exact ⟨main.1 (by decide), hoff.1, hoff.2.1, hoff.2.2.1, hoff.2.2.2⟩

end Skyline
